import Mathlib

/-!
Verification of the review-analyzer HTTP service (src/server.py).

The embedding models the request-handling pipeline at the level of parsed
query/form parameters (a list of key/value pairs, first occurrence wins,
mirroring what the handlers extract from urllib's parse_qs output).

Python's datetime.strptime for the two fixed formats "%Y-%m-%d" and
"%Y-%m-%d %H:%M:%S" is modelled faithfully: four-digit year, one- or
two-digit month/day/hour/minute/second with range checks, day-of-month
validity including leap years, a whitespace run where the format has a
space, and rejection of any leftover input.  datetime comparison is the
lexicographic order on the six fields, realised through an injective
monotone key.

The sentiment scorer (nltk's SentimentIntensityAnalyzer) is an external
deterministic function; the handlers are parametrised by it.

Crucially for the frame conditions, server.py line 91 takes a SHALLOW copy
of the module-level review list, so the dict objects in the copy are the
stored dicts themselves; line 128 assigns review["sentiment"] through
those shared references.  handleGet therefore returns the post-request
store alongside the response body, with the sentiment field attached to
exactly the records that reached the ranking step.
-/

namespace ReviewServer

/-- Query (or form) parameters: key/value pairs; lookup takes the first
value for a key, matching parse_qs followed by indexing with 0. -/
abbrev QP := List (String × String)

def qget (qp : QP) (k : String) : Option String :=
  qp.lookup k

/-- A parsed datetime value (datetime.datetime in the source). -/
structure DateTime where
  year : Nat
  month : Nat
  day : Nat
  hour : Nat
  minute : Nat
  second : Nat
deriving DecidableEq, Repr

/-- Injective monotone key realising the lexicographic (field-wise)
comparison of datetime values; valid for the field bounds the parser
enforces (month ≤ 12, day ≤ 31, hour ≤ 23, minute, second ≤ 59). -/
def DateTime.toKey (t : DateTime) : Nat :=
  ((((t.year * 13 + t.month) * 32 + t.day) * 24 + t.hour) * 60 + t.minute) * 60 + t.second

/-- The four-field polarity score returned by the scorer. -/
structure Sentiment where
  neg : ℚ
  neu : ℚ
  pos : ℚ
  compound : ℚ
deriving DecidableEq, Repr

/-- A review record (a dict in the source).  Seeded records carry no
sentiment until a request attaches one. -/
structure Review where
  ReviewId : Option String
  ReviewBody : String
  Location : String
  Timestamp : String
  sentiment : Option Sentiment
deriving DecidableEq, Repr

/-! ### strptime / strftime for the two fixed formats -/

def charsToNat (cs : List Char) : Nat :=
  cs.foldl (fun a c => a * 10 + (c.toNat - 48)) 0

/-- A one- or two-digit numeric field with an inclusive range check,
matching the regexes strptime compiles for %m, %d, %H, %M, %S. -/
def parseField (cs : List Char) (lo hi : Nat) : Option Nat :=
  if cs.all Char.isDigit && decide (1 ≤ cs.length) && decide (cs.length ≤ 2) then
    let v := charsToNat cs
    if decide (lo ≤ v) && decide (v ≤ hi) then some v else none
  else none

/-- %Y: exactly four digits; datetime requires year ≥ 1. -/
def parseYear (cs : List Char) : Option Nat :=
  if cs.all Char.isDigit && decide (cs.length = 4) then
    let v := charsToNat cs
    if decide (1 ≤ v) then some v else none
  else none

def isLeapYear (y : Nat) : Bool :=
  decide (y % 4 = 0) && (decide (y % 100 ≠ 0) || decide (y % 400 = 0))

def daysInMonth (y m : Nat) : Nat :=
  if m = 2 then (if isLeapYear y then 29 else 28)
  else if m = 4 ∨ m = 6 ∨ m = 9 ∨ m = 11 then 30
  else 31

/-- Split a character list at every occurrence of a separator, keeping
empty segments (the semantics of str.split with an explicit separator). -/
def splitOnChar (sep : Char) : List Char → List (List Char)
  | [] => [[]]
  | c :: cs =>
    match splitOnChar sep cs with
    | [] => [[]]
    | g :: gs => if c = sep then [] :: g :: gs else (c :: g) :: gs

/-- Split at every whitespace character, keeping empty segments. -/
def splitWhitespace : List Char → List (List Char)
  | [] => [[]]
  | c :: cs =>
    match splitWhitespace cs with
    | [] => [[]]
    | g :: gs => if c.isWhitespace then [] :: g :: gs else (c :: g) :: gs

/-- The %Y-%m-%d part: year, month in 1..12, day in 1..31 and at most the
length of the month (datetime's constructor check). -/
def parseYMD (cs : List Char) : Option (Nat × Nat × Nat) :=
  match splitOnChar '-' cs with
  | [ys, ms, ds] => do
    let y ← parseYear ys
    let m ← parseField ms 1 12
    let d ← parseField ds 1 31
    if d ≤ daysInMonth y m then some (y, m, d) else none
  | _ => none

/-- The %H:%M:%S part: hour 0..23, minute and second 0..59 (strptime's
regex admits 60 and 61 seconds but datetime's constructor rejects them,
so the combined call fails either way). -/
def parseHMS (cs : List Char) : Option (Nat × Nat × Nat) :=
  match splitOnChar ':' cs with
  | [hs, ms, ss] => do
    let h ← parseField hs 0 23
    let mi ← parseField ms 0 59
    let s ← parseField ss 0 59
    some (h, mi, s)
  | _ => none

/-- datetime.strptime(s, "%Y-%m-%d"): a bare date parses to midnight of
that day. -/
def strptimeDate (s : String) : Option DateTime :=
  match parseYMD s.data with
  | some (y, m, d) => some ⟨y, m, d, 0, 0, 0⟩
  | none => none

/-- datetime.strptime(s, "%Y-%m-%d %H:%M:%S"): strptime turns the space in
the format into a whitespace-run matcher, anchored at both ends of the
input. -/
def strptimeDateTime (s : String) : Option DateTime :=
  let parts := splitWhitespace s.data
  if parts.head? = some [] ∨ parts.getLast? = some [] then none
  else
    match parts.filter (fun g => !g.isEmpty) with
    | [dPart, tPart] => do
      let ymd ← parseYMD dPart
      let hms ← parseHMS tPart
      some ⟨ymd.1, ymd.2.1, ymd.2.2, hms.1, hms.2.1, hms.2.2⟩
    | _ => none

def pad2 (n : Nat) : String :=
  if n < 10 then "0" ++ toString n else toString n

def pad4 (n : Nat) : String :=
  if n < 10 then "000" ++ toString n
  else if n < 100 then "00" ++ toString n
  else if n < 1000 then "0" ++ toString n
  else toString n

/-- datetime.now().strftime("%Y-%m-%d %H:%M:%S"). -/
def strftimeDateTime (t : DateTime) : String :=
  pad4 t.year ++ "-" ++ pad2 t.month ++ "-" ++ pad2 t.day ++ " " ++
    pad2 t.hour ++ ":" ++ pad2 t.minute ++ ":" ++ pad2 t.second

/-! ### The fixed allow-list (verbatim from server.py, duplicate included) -/

def allowed_locations : List String :=
  ["Albuquerque, New Mexico",
   "Carlsbad, California",
   "Chula Vista, California",
   "Colorado Springs, Colorado",
   "Denver, Colorado",
   "El Cajon, California",
   "El Paso, Texas",
   "Escondido, California",
   "Fresno, California",
   "La Mesa, California",
   "Las Vegas, Nevada",
   "Los Angeles, California",
   "Oceanside, California",
   "Phoenix, Arizona",
   "Sacramento, California",
   "Salt Lake City, Utah",
   "Salt Lake City, Utah",
   "San Diego, California",
   "Tucson, Arizona"]

/-! ### The date-range filter (filter_by_date_range in server.py) -/

/-- The list comprehensions at lines 50-66: each kept review's Timestamp
is parsed with the full format; a parse failure there raises (none),
matching the uncaught ValueError. -/
def filterTimestamps (p : DateTime → Bool) : List Review → Option (List Review)
  | [] => some []
  | r :: rs =>
    match strptimeDateTime r.Timestamp, filterTimestamps p rs with
    | some t, some rest => some (if p t then r :: rest else rest)
    | _, _ => none

/-- filter_by_date_range: a supplied bound that fails to parse triggers an
early return of the input list (lines 40 and 47), before any comparison
and before the other bound is applied. -/
def filter_by_date_range (filtered_reviews : List Review) (query_params : QP) :
    Option (List Review) :=
  match qget query_params "start_date", qget query_params "end_date" with
  | some s, some e =>
    match strptimeDate s with
    | none => some filtered_reviews
    | some start_date =>
      match strptimeDate e with
      | none => some filtered_reviews
      | some end_date =>
        filterTimestamps
          (fun t => decide (start_date.toKey ≤ t.toKey) && decide (t.toKey ≤ end_date.toKey))
          filtered_reviews
  | some s, none =>
    match strptimeDate s with
    | none => some filtered_reviews
    | some start_date =>
      filterTimestamps (fun t => decide (start_date.toKey ≤ t.toKey)) filtered_reviews
  | none, some e =>
    match strptimeDate e with
    | none => some filtered_reviews
    | some end_date =>
      filterTimestamps (fun t => decide (t.toKey ≤ end_date.toKey)) filtered_reviews
  | none, none => some filtered_reviews

/-! ### The GET and POST handlers (ReviewAnalyzerServer.__call__) -/

/-- review["sentiment"] = self.analyze_sentiment(review["ReviewBody"]). -/
def attachSentiment (score : String → Sentiment) (r : Review) : Review :=
  ⟨r.ReviewId, r.ReviewBody, r.Location, r.Timestamp, some (score r.ReviewBody)⟩

/-- The sort key at line 129; in the pipeline every review reaching the
sort has a sentiment attached, so the default is never consulted. -/
def compoundOf (r : Review) : ℚ :=
  ((r.sentiment.getD ⟨0, 0, 0, 0⟩).compound)

/-- list.sort(key=compound, reverse=True): CPython's stable sort run
descending, i.e. a stable merge sort under the reversed key order. -/
def rank (l : List Review) : List Review :=
  l.mergeSort (fun a b => decide (compoundOf b ≤ compoundOf a))

/-- The GET flow: location filter, date filter, allow-list short-circuit,
sentiment attachment, ranking.  Returns none when an uncaught ValueError
escapes (an unparseable stored Timestamp reached by the date filter).
Result: (store after the request, response body list).  The store is
updated through the shared dict references of the shallow copy: exactly
the records in the final filtered list get a sentiment attached, in
unchanged store order. -/
def handleGet (score : String → Sentiment) (store : List Review) (qp : QP) :
    Option (List Review × List Review) :=
  let locFiltered :=
    match qget qp "location" with
    | some loc => store.filter (fun r => r.Location == loc)
    | none => store
  match filter_by_date_range locFiltered qp with
  | none => none
  | some dateFiltered =>
    let finalList :=
      match qget qp "location" with
      | some loc => if loc ∈ allowed_locations then dateFiltered else []
      | none => dateFiltered
    some (store.map (fun r => if r ∈ finalList then attachSentiment score r else r),
          rank (finalList.map (attachSentiment score)))

inductive PostResp where
  | created (r : Review)
  | clientError (msg : String)
deriving DecidableEq, Repr

/-- The status line passed to start_response for each POST outcome. -/
def statusOf : PostResp → String
  | PostResp.created _ => "201 Created"
  | PostResp.clientError _ => "400 Bad Request"

/-- The POST flow: extraction of ReviewBody and Location (a missing key
raises KeyError, caught by the bare except), the allow-list check, then
construction and append of the new review.  now is the server clock
reading, newId the generated uuid4 string.  Result: (store after the
request, response). -/
def handlePost (score : String → Sentiment) (store : List Review) (parsed_body : QP)
    (now : DateTime) (newId : String) : List Review × PostResp :=
  match qget parsed_body "ReviewBody", qget parsed_body "Location" with
  | some review_body, some location =>
    if location ∈ allowed_locations then
      let new_review : Review :=
        ⟨some newId, review_body, location, strftimeDateTime now, some (score review_body)⟩
      (store ++ [new_review], PostResp.created new_review)
    else
      (store, PostResp.clientError "Invalid location provided")
  | _, _ => (store, PostResp.clientError "ReviewBody and Location are required")

/-! ### Derived notions used to state the claims -/

/-- The bound a date parameter contributes: some none when the parameter
is absent, some (some d) when it parses, none when it is malformed. -/
def dateBound (qp : QP) (key : String) : Option (Option DateTime) :=
  match qget qp key with
  | none => some none
  | some s =>
    match strptimeDate s with
    | some d => some (some d)
    | none => none

/-- The range test of the spec: Timestamp ≥ start (when given) and
≤ end (when given), both inclusive, at full timestamp precision. -/
def withinBounds (sd ed : Option DateTime) (t : DateTime) : Bool :=
  (match sd with
   | none => true
   | some s => decide (s.toKey ≤ t.toKey)) &&
  (match ed with
   | none => true
   | some e => decide (t.toKey ≤ e.toKey))

/-- The per-review keep predicate of the date filter; the none branch is
only reached when no bound is given (otherwise the filter fails first). -/
def keepsReview (sd ed : Option DateTime) (r : Review) : Bool :=
  match strptimeDateTime r.Timestamp with
  | none => true
  | some t => withinBounds sd ed t

/-- A concrete deterministic scorer used to instantiate witnesses. -/
def demoScore : String → Sentiment :=
  fun s => ⟨0, 1, 0, (s.length : ℚ)⟩

/-- A seeded review without an attached sentiment. -/
def sampleReview : Review :=
  ⟨none, "Great stay", "Denver, Colorado", "2021-06-01 12:00:00", none⟩

/-- A seeded review whose location is outside the allow-list. -/
def nowhereReview : Review :=
  ⟨none, "ok", "Nowhere", "2021-06-01 12:00:00", none⟩

/-- The review a successful POST constructs (lines 189-195). -/
def newReviewOf (score : String → Sentiment) (rb loc : String) (now : DateTime)
    (newId : String) : Review :=
  ⟨some newId, rb, loc, strftimeDateTime now, some (score rb)⟩

/-! ### Helper lemmas -/

/-- Characterisation of a successful run of the date-filter comprehension:
every timestamp in the input parses, and the result is the Boolean filter
by the comparison predicate. -/
theorem filterTimestamps_spec (p : DateTime → Bool) (l : List Review) :
    ∀ res, filterTimestamps p l = some res →
      (∀ r ∈ l, (strptimeDateTime r.Timestamp).isSome) ∧
      res = l.filter (fun r =>
        match strptimeDateTime r.Timestamp with
        | none => true
        | some t => p t) := by
  induction l with
  | nil =>
    intro res h
    simp [filterTimestamps] at h
    subst h
    simp
  | cons r rs ih =>
    intro res h
    unfold filterTimestamps at h
    cases hp : strptimeDateTime r.Timestamp with
    | none => rw [hp] at h; simp at h
    | some t =>
      rw [hp] at h
      cases hr : filterTimestamps p rs with
      | none => rw [hr] at h; simp at h
      | some rest =>
        rw [hr] at h
        simp only [Option.some.injEq] at h
        obtain ⟨hall, hrest⟩ := ih rest hr
        refine ⟨?_, ?_⟩
        · intro x hx
          rcases List.mem_cons.mp hx with hx | hx
          · rw [hx, hp]; rfl
          · exact hall x hx
        · rw [← h, hrest, List.filter_cons]
          simp [hp]

theorem rank_nil : rank [] = [] :=
  List.mergeSort_nil

theorem rank_singleton (r : Review) : rank [r] = [r] :=
  List.mergeSort_singleton r

/-! ### Claim C1 (corrected) -/

/-- Claim C1, counterexample: with a malformed start_date and a well-formed
end_date of 2021-01-01, a review timestamped 2021-06-01 survives the
filter, although filtering with the malformed start_date absent would
apply the end bound and remove it.  The claim's assertion that only the
malformed bound is dropped is therefore false at this input. -/
theorem malformed_start_keeps_end_unapplied :
    filter_by_date_range [sampleReview]
        [("start_date", "not-a-date"), ("end_date", "2021-01-01")] = some [sampleReview] ∧
    filter_by_date_range [sampleReview] [("end_date", "2021-01-01")] = some [] := by
  constructor
  · rfl
  · decide

/-- Claim C1 as amended: when a supplied start_date or end_date fails to
parse as a YYYY-MM-DD date, filter_by_date_range returns its input
unchanged — the date filter is skipped entirely, dropping BOTH bounds,
not just the malformed one. -/
theorem malformed_date_bound_skips_filter (l : List Review) (qp : QP)
    (h : (∃ s, qget qp "start_date" = some s ∧ strptimeDate s = none) ∨
         (∃ e, qget qp "end_date" = some e ∧ strptimeDate e = none)) :
    filter_by_date_range l qp = some l := by
  rcases h with ⟨s, hs, hps⟩ | ⟨e, he, hpe⟩
  · cases hend : qget qp "end_date" with
    | none => simp [filter_by_date_range, hs, hend, hps]
    | some e => simp [filter_by_date_range, hs, hend, hps]
  · cases hstart : qget qp "start_date" with
    | none => simp [filter_by_date_range, hstart, he, hpe]
    | some s =>
      cases hps : strptimeDate s with
      | none => simp [filter_by_date_range, hstart, he, hps]
      | some sd => simp [filter_by_date_range, hstart, he, hps, hpe]

/-- Witness for the amended claim C1 at a concrete malformed start_date. -/
theorem malformed_date_bound_skips_filter_witness :
    filter_by_date_range [sampleReview]
        [("start_date", "zzz"), ("end_date", "2021-01-01")] = some [sampleReview] :=
  malformed_date_bound_skips_filter [sampleReview]
    [("start_date", "zzz"), ("end_date", "2021-01-01")]
    (Or.inl ⟨"zzz", rfl, by decide⟩)

/-! ### Claim C2 (code bug) -/

/-- Claim C2 fails on the code: the comment at server.py line 91 says the
copy is taken to avoid modifying the original data, but the copy is
shallow, so attaching sentiment at line 128 mutates the stored records.
Here a parameterless GET on a store holding one sentiment-free review
leaves the store with a sentiment attached to that record: the store
after the request differs from the store before it. -/
theorem get_attaches_sentiment_to_store :
    handleGet demoScore [sampleReview] [] =
      some ([attachSentiment demoScore sampleReview],
            [attachSentiment demoScore sampleReview]) ∧
    (handleGet demoScore [sampleReview] []).map Prod.fst ≠ some [sampleReview] := by
  have h : handleGet demoScore [sampleReview] [] =
      some ([attachSentiment demoScore sampleReview],
            rank [attachSentiment demoScore sampleReview]) := rfl
  rw [rank_singleton] at h
  refine ⟨h, ?_⟩
  rw [h]
  intro hc
  simp [attachSentiment, sampleReview] at hc

/-! ### Claim C3 (confirmed) -/

/-- Claim C3: a GET whose location parameter is not in the allow-list
produces the empty response list, whatever the store holds — including
stores containing reviews whose Location field equals that exact string.
The allow-list check at server.py line 123 resets the filtered list to
empty after the location and date filters ran. -/
theorem unknown_location_yields_empty (score : String → Sentiment) (store : List Review)
    (qp : QP) (loc : String) (pr : List Review × List Review)
    (hloc : qget qp "location" = some loc)
    (hnot : loc ∉ allowed_locations)
    (h : handleGet score store qp = some pr) :
    pr.2 = [] := by
  simp only [handleGet, hloc] at h
  cases hf : filter_by_date_range (List.filter (fun r => r.Location == loc) store) qp with
  | none => rw [hf] at h; exact absurd h (by simp)
  | some d =>
    rw [hf] at h
    simp only [Option.some.injEq] at h
    rw [← h]
    simp [hnot, rank_nil]

/-- Witness for claim C3: GET with location Nowhere on a store that does
hold a review located at Nowhere still answers with the empty list. -/
theorem unknown_location_yields_empty_witness :
    (([nowhereReview], ([] : List Review)) : List Review × List Review).2 = [] :=
  unknown_location_yields_empty demoScore [nowhereReview] [("location", "Nowhere")]
    "Nowhere" ([nowhereReview], []) rfl (by decide)
    (by
      have h0 : handleGet demoScore [nowhereReview] [("location", "Nowhere")] =
          some ([nowhereReview], rank []) := rfl
      rw [rank_nil] at h0
      exact h0)

/-! ### Claim C4 (confirmed) -/

/-- Claim C4: with parseable date parameters (at least one present), the
date filter keeps exactly the reviews whose Timestamp lies between
midnight of start_date and midnight of end_date, both inclusive, at full
timestamp precision — the end bound is start-of-day, not end-of-day
(strptime of a bare date yields midnight).  Every stored Timestamp the
filter examined necessarily parses (otherwise the request dies with an
uncaught ValueError and there is no result at all). -/
theorem date_filter_keeps_exactly_in_range
    (l res : List Review) (qp : QP) (sdo edo : Option DateTime)
    (hs : dateBound qp "start_date" = some sdo)
    (he : dateBound qp "end_date" = some edo)
    (hpresent : qget qp "start_date" ≠ none ∨ qget qp "end_date" ≠ none)
    (hres : filter_by_date_range l qp = some res) :
    (∀ r ∈ l, (strptimeDateTime r.Timestamp).isSome) ∧
    res = l.filter (keepsReview sdo edo) := by
  unfold dateBound at hs he
  unfold filter_by_date_range at hres
  cases hqs : qget qp "start_date" <;> rw [hqs] at hs hres hpresent <;>
    cases hqe : qget qp "end_date" <;> rw [hqe] at he hres hpresent
  case none.none =>
    rcases hpresent with hp | hp <;> exact absurd rfl hp
  case none.some e =>
    dsimp only at hs he hres
    injection hs with hs1
    subst hs1
    cases hpe : strptimeDate e <;> rw [hpe] at he hres <;> dsimp only at he hres
    · exact absurd he (by simp)
    · injection he with he1
      subst he1
      obtain ⟨hall, hfil⟩ := filterTimestamps_spec _ l res hres
      refine ⟨hall, ?_⟩
      rw [hfil]
      apply List.filter_congr
      intro r _
      cases hrt : strptimeDateTime r.Timestamp <;>
        simp [keepsReview, withinBounds, hrt]
  case some.none s =>
    dsimp only at hs he hres
    injection he with he1
    subst he1
    cases hps : strptimeDate s <;> rw [hps] at hs hres <;> dsimp only at hs hres
    · exact absurd hs (by simp)
    · injection hs with hs1
      subst hs1
      obtain ⟨hall, hfil⟩ := filterTimestamps_spec _ l res hres
      refine ⟨hall, ?_⟩
      rw [hfil]
      apply List.filter_congr
      intro r _
      cases hrt : strptimeDateTime r.Timestamp <;>
        simp [keepsReview, withinBounds, hrt]
  case some.some s e =>
    dsimp only at hs he hres
    cases hps : strptimeDate s <;> rw [hps] at hs hres <;> dsimp only at hs hres
    · exact absurd hs (by simp)
    · injection hs with hs1
      subst hs1
      cases hpe : strptimeDate e <;> rw [hpe] at he hres <;> dsimp only at he hres
      · exact absurd he (by simp)
      · injection he with he1
        subst he1
        obtain ⟨hall, hfil⟩ := filterTimestamps_spec _ l res hres
        refine ⟨hall, ?_⟩
        rw [hfil]
        apply List.filter_congr
        intro r _
        cases hrt : strptimeDateTime r.Timestamp <;>
          simp [keepsReview, withinBounds, hrt]

/-- Witness for claim C4 on a concrete store and a parseable range. -/
theorem date_filter_keeps_exactly_in_range_witness :
    (∀ r ∈ [sampleReview], (strptimeDateTime r.Timestamp).isSome) ∧
    [sampleReview] = [sampleReview].filter
      (keepsReview (some ⟨2021, 1, 1, 0, 0, 0⟩) (some ⟨2021, 12, 31, 0, 0, 0⟩)) :=
  date_filter_keeps_exactly_in_range [sampleReview] [sampleReview]
    [("start_date", "2021-01-01"), ("end_date", "2021-12-31")]
    (some ⟨2021, 1, 1, 0, 0, 0⟩) (some ⟨2021, 12, 31, 0, 0, 0⟩)
    (by decide) (by decide) (Or.inl (by decide)) (by decide)

/-! ### Claim C5 (confirmed) -/

/-- Claim C5: the ranking step is a stable descending sort on the compound
score: the output is a permutation of the input, pairwise descending in
compound, and the subsequence of reviews carrying any fixed compound
score c is exactly the same (same members, same relative order) as in
the input. -/
theorem ranking_is_stable_descending_sort (l : List Review) (c : ℚ) :
    (rank l).Perm l ∧
    (rank l).Pairwise (fun a b => compoundOf b ≤ compoundOf a) ∧
    (rank l).filter (fun r => decide (compoundOf r = c)) =
      l.filter (fun r => decide (compoundOf r = c)) := by
  have htrans : ∀ a b c' : Review,
      decide (compoundOf b ≤ compoundOf a) = true →
      decide (compoundOf c' ≤ compoundOf b) = true →
      decide (compoundOf c' ≤ compoundOf a) = true := by
    intro a b c' hab hbc
    simp only [decide_eq_true_eq] at hab hbc ⊢
    exact le_trans hbc hab
  have htotal : ∀ a b : Review,
      (decide (compoundOf b ≤ compoundOf a) || decide (compoundOf a ≤ compoundOf b)) = true := by
    intro a b
    simp only [Bool.or_eq_true, decide_eq_true_eq]
    exact le_total (compoundOf b) (compoundOf a)
  refine ⟨List.mergeSort_perm l _, ?_, ?_⟩
  · have hp := List.sorted_mergeSort htrans htotal l
    exact hp.imp (by intro a b h; simpa using h)
  · have hmemA : ∀ a ∈ l.filter (fun r => decide (compoundOf r = c)), compoundOf a = c := by
      intro a ha
      simpa using List.of_mem_filter ha
    have hpairA : (l.filter (fun r => decide (compoundOf r = c))).Pairwise
        (fun a b => decide (compoundOf b ≤ compoundOf a) = true) := by
      apply List.pairwise_of_forall_mem_list
      intro a ha b hb
      rw [hmemA a ha, hmemA b hb]
      simp
    have hsub : (l.filter (fun r => decide (compoundOf r = c))).Sublist (rank l) :=
      List.sublist_mergeSort htrans htotal hpairA (List.filter_sublist l)
    have hsub2 := hsub.filter (fun r => decide (compoundOf r = c))
    have hAA : (l.filter (fun r => decide (compoundOf r = c))).filter
        (fun r => decide (compoundOf r = c)) = l.filter (fun r => decide (compoundOf r = c)) := by
      rw [List.filter_eq_self]
      intro a ha
      exact (List.mem_filter.mp ha).2
    rw [hAA] at hsub2
    have hperm : ((rank l).filter (fun r => decide (compoundOf r = c))).Perm
        (l.filter (fun r => decide (compoundOf r = c))) :=
      (List.mergeSort_perm l _).filter _
    exact (hsub2.eq_of_length hperm.length_eq.symm).symm

/-! ### Claim C6 (confirmed) -/

/-- Claim C6: a POST supplying both ReviewBody and an allow-listed
Location answers 201 Created with a review whose Location is the
submitted string unchanged, whose ReviewId is the freshly generated id,
whose Timestamp is the server clock formatted YYYY-MM-DD HH:MM:SS, and
whose sentiment is the computed score; the review is appended to the
store and appears in the response of a subsequent GET. -/
theorem valid_post_creates_and_is_visible
    (score : String → Sentiment) (store : List Review) (body : QP)
    (now : DateTime) (newId rb loc : String)
    (hrb : qget body "ReviewBody" = some rb)
    (hloc : qget body "Location" = some loc)
    (hallow : loc ∈ allowed_locations) :
    handlePost score store body now newId =
      (store ++ [newReviewOf score rb loc now newId],
       PostResp.created (newReviewOf score rb loc now newId)) ∧
    statusOf (handlePost score store body now newId).2 = "201 Created" ∧
    (newReviewOf score rb loc now newId).Location = loc ∧
    (newReviewOf score rb loc now newId).Timestamp = strftimeDateTime now ∧
    ∃ pr, handleGet score (store ++ [newReviewOf score rb loc now newId]) [] = some pr ∧
          newReviewOf score rb loc now newId ∈ pr.2 := by
  have hpost : handlePost score store body now newId =
      (store ++ [newReviewOf score rb loc now newId],
       PostResp.created (newReviewOf score rb loc now newId)) := by
    unfold handlePost
    rw [hrb, hloc]
    dsimp only
    rw [if_pos hallow]
    rfl
  refine ⟨hpost, by rw [hpost]; rfl, rfl, rfl, ?_⟩
  have hget : handleGet score (store ++ [newReviewOf score rb loc now newId]) [] =
      some ((store ++ [newReviewOf score rb loc now newId]).map
              (fun r => if r ∈ store ++ [newReviewOf score rb loc now newId] then
                          attachSentiment score r else r),
            rank ((store ++ [newReviewOf score rb loc now newId]).map
                    (attachSentiment score))) := rfl
  refine ⟨_, hget, ?_⟩
  have hmem : newReviewOf score rb loc now newId ∈ store ++ [newReviewOf score rb loc now newId] :=
    List.mem_append_right store (List.mem_singleton_self _)
  have hx : attachSentiment score (newReviewOf score rb loc now newId) ∈
      (store ++ [newReviewOf score rb loc now newId]).map (attachSentiment score) :=
    List.mem_map_of_mem _ hmem
  have hattach : attachSentiment score (newReviewOf score rb loc now newId) =
      newReviewOf score rb loc now newId := rfl
  rw [hattach] at hx
  exact List.mem_mergeSort.mpr hx

/-- Witness for claim C6 at a concrete valid submission. -/
theorem valid_post_creates_and_is_visible_witness :
    handlePost demoScore []
        [("ReviewBody", "Great stay"), ("Location", "Denver, Colorado")]
        ⟨2024, 1, 2, 3, 4, 5⟩ "id-1" =
      ([newReviewOf demoScore "Great stay" "Denver, Colorado" ⟨2024, 1, 2, 3, 4, 5⟩ "id-1"],
       PostResp.created
         (newReviewOf demoScore "Great stay" "Denver, Colorado" ⟨2024, 1, 2, 3, 4, 5⟩ "id-1")) ∧
    statusOf (handlePost demoScore []
        [("ReviewBody", "Great stay"), ("Location", "Denver, Colorado")]
        ⟨2024, 1, 2, 3, 4, 5⟩ "id-1").2 = "201 Created" ∧
    (newReviewOf demoScore "Great stay" "Denver, Colorado"
        ⟨2024, 1, 2, 3, 4, 5⟩ "id-1").Location = "Denver, Colorado" ∧
    (newReviewOf demoScore "Great stay" "Denver, Colorado"
        ⟨2024, 1, 2, 3, 4, 5⟩ "id-1").Timestamp = strftimeDateTime ⟨2024, 1, 2, 3, 4, 5⟩ ∧
    ∃ pr, handleGet demoScore
        ([] ++ [newReviewOf demoScore "Great stay" "Denver, Colorado"
                  ⟨2024, 1, 2, 3, 4, 5⟩ "id-1"]) [] = some pr ∧
          newReviewOf demoScore "Great stay" "Denver, Colorado"
            ⟨2024, 1, 2, 3, 4, 5⟩ "id-1" ∈ pr.2 :=
  valid_post_creates_and_is_visible demoScore []
    [("ReviewBody", "Great stay"), ("Location", "Denver, Colorado")]
    ⟨2024, 1, 2, 3, 4, 5⟩ "id-1" "Great stay" "Denver, Colorado" rfl rfl (by decide)

/-! ### Claim C7 (confirmed) -/

/-- Claim C7: a POST whose form body lacks ReviewBody or lacks Location is
rejected with 400 Bad Request and the missing-field error message (the
KeyError path at server.py lines 145-156). -/
theorem post_missing_field_rejected (score : String → Sentiment) (store : List Review)
    (body : QP) (now : DateTime) (newId : String)
    (h : qget body "ReviewBody" = none ∨ qget body "Location" = none) :
    handlePost score store body now newId =
      (store, PostResp.clientError "ReviewBody and Location are required") ∧
    statusOf (handlePost score store body now newId).2 = "400 Bad Request" := by
  have hmain : handlePost score store body now newId =
      (store, PostResp.clientError "ReviewBody and Location are required") := by
    unfold handlePost
    rcases h with h | h
    · rw [h]
    · rw [h]
      cases hx : qget body "ReviewBody" <;> rfl
  exact ⟨hmain, by rw [hmain]; rfl⟩

/-- Witness for claim C7: the body supplies Location only. -/
theorem post_missing_field_rejected_witness :
    handlePost demoScore [] [("Location", "Denver, Colorado")] ⟨2024, 1, 2, 3, 4, 5⟩ "id-1" =
      ([], PostResp.clientError "ReviewBody and Location are required") ∧
    statusOf (handlePost demoScore [] [("Location", "Denver, Colorado")]
        ⟨2024, 1, 2, 3, 4, 5⟩ "id-1").2 = "400 Bad Request" :=
  post_missing_field_rejected demoScore [] [("Location", "Denver, Colorado")]
    ⟨2024, 1, 2, 3, 4, 5⟩ "id-1" (Or.inl rfl)

/-! ### Claim C8 (confirmed) -/

/-- Claim C8: a POST supplying both fields whose Location is not an exact
entry of the allow-list is rejected with 400 Bad Request and the body
message Invalid location provided, and no review is created (the store
component of the result is the input store). -/
theorem post_invalid_location_rejected (score : String → Sentiment) (store : List Review)
    (body : QP) (now : DateTime) (newId rb loc : String)
    (hrb : qget body "ReviewBody" = some rb)
    (hloc : qget body "Location" = some loc)
    (hnot : loc ∉ allowed_locations) :
    handlePost score store body now newId =
      (store, PostResp.clientError "Invalid location provided") ∧
    statusOf (handlePost score store body now newId).2 = "400 Bad Request" := by
  have hmain : handlePost score store body now newId =
      (store, PostResp.clientError "Invalid location provided") := by
    unfold handlePost
    rw [hrb, hloc]
    dsimp only
    rw [if_neg hnot]
  exact ⟨hmain, by rw [hmain]; rfl⟩

/-- Witness for claim C8 with Location Nowhere. -/
theorem post_invalid_location_rejected_witness :
    handlePost demoScore [] [("ReviewBody", "ok"), ("Location", "Nowhere")]
        ⟨2024, 1, 2, 3, 4, 5⟩ "id-1" =
      ([], PostResp.clientError "Invalid location provided") ∧
    statusOf (handlePost demoScore [] [("ReviewBody", "ok"), ("Location", "Nowhere")]
        ⟨2024, 1, 2, 3, 4, 5⟩ "id-1").2 = "400 Bad Request" :=
  post_invalid_location_rejected demoScore [] [("ReviewBody", "ok"), ("Location", "Nowhere")]
    ⟨2024, 1, 2, 3, 4, 5⟩ "id-1" "ok" "Nowhere" rfl rfl (by decide)

/-! ### Claim C9 (confirmed) -/

/-- Claim C9: for any review a successful POST returns, recomputing the
sentiment from the stored body — exactly what every later GET does via
attachSentiment — reproduces the stored sentiment, compound score
included; the scorer being a function makes it deterministic. -/
theorem created_sentiment_round_trips
    (score : String → Sentiment) (store : List Review) (body : QP)
    (now : DateTime) (newId : String) (nr : Review)
    (h : (handlePost score store body now newId).2 = PostResp.created nr) :
    attachSentiment score nr = nr ∧
    (score nr.ReviewBody).compound = compoundOf nr := by
  unfold handlePost at h
  cases hrb : qget body "ReviewBody" <;> rw [hrb] at h
  case none =>
    cases hloc : qget body "Location" <;> rw [hloc] at h <;> dsimp only at h <;> simp at h
  case some rb =>
    cases hloc : qget body "Location" with
    | none => rw [hloc] at h; dsimp only at h; simp at h
    | some loc =>
      rw [hloc] at h
      dsimp only at h
      by_cases hal : loc ∈ allowed_locations
      · rw [if_pos hal] at h
        dsimp only at h
        injection h with h1
        subst h1
        exact ⟨rfl, rfl⟩
      · rw [if_neg hal] at h
        simp at h

/-- Witness for claim C9 at a concrete successful POST. -/
theorem created_sentiment_round_trips_witness :
    attachSentiment demoScore
        (newReviewOf demoScore "Great stay" "Denver, Colorado" ⟨2024, 1, 2, 3, 4, 5⟩ "id-1") =
      newReviewOf demoScore "Great stay" "Denver, Colorado" ⟨2024, 1, 2, 3, 4, 5⟩ "id-1" ∧
    (demoScore (newReviewOf demoScore "Great stay" "Denver, Colorado"
        ⟨2024, 1, 2, 3, 4, 5⟩ "id-1").ReviewBody).compound =
      compoundOf (newReviewOf demoScore "Great stay" "Denver, Colorado"
        ⟨2024, 1, 2, 3, 4, 5⟩ "id-1") :=
  created_sentiment_round_trips demoScore []
    [("ReviewBody", "Great stay"), ("Location", "Denver, Colorado")]
    ⟨2024, 1, 2, 3, 4, 5⟩ "id-1"
    (newReviewOf demoScore "Great stay" "Denver, Colorado" ⟨2024, 1, 2, 3, 4, 5⟩ "id-1")
    (by decide)

/-! ### Claim C10 (confirmed) -/

/-- Claim C10: any POST answered 400 Bad Request (either clientError
outcome) leaves the store exactly as it was: both rejection paths return
before the append. -/
theorem failed_post_leaves_store_unchanged
    (score : String → Sentiment) (store : List Review) (body : QP)
    (now : DateTime) (newId : String) (msg : String)
    (h : (handlePost score store body now newId).2 = PostResp.clientError msg) :
    (handlePost score store body now newId).1 = store := by
  unfold handlePost at h ⊢
  cases hrb : qget body "ReviewBody" <;> rw [hrb] at h
  case some rb =>
    cases hloc : qget body "Location" with
    | none => rfl
    | some loc =>
      rw [hloc] at h
      dsimp only at h ⊢
      by_cases hal : loc ∈ allowed_locations
      · rw [if_pos hal] at h
        dsimp only at h
        simp at h
      · rw [if_neg hal]

/-- Witness for claim C10 at a concrete rejected POST. -/
theorem failed_post_leaves_store_unchanged_witness :
    (handlePost demoScore [sampleReview] [("ReviewBody", "ok"), ("Location", "Nowhere")]
        ⟨2024, 1, 2, 3, 4, 5⟩ "id-1").1 = [sampleReview] :=
  failed_post_leaves_store_unchanged demoScore [sampleReview]
    [("ReviewBody", "ok"), ("Location", "Nowhere")] ⟨2024, 1, 2, 3, 4, 5⟩ "id-1"
    "Invalid location provided" (by decide)

end ReviewServer
